import Mathlib

/-!
Verification of the ResistorNetworkCalculator repository.

The Python sources are embedded shallowly over exact rational arithmetic:
every Python float value or arithmetic step is modelled as a `ℚ`
computation (one definition, `fl`, additionally models the IEEE-754
binary64 rounding that CPython applies at each arithmetic step, and is
used where the distinction is load-bearing).  Fallible Python code
(raised exceptions) is modelled with `Except PyError`.
-/

set_option autoImplicit false

/-- The Python exceptions that the embedded code can raise.  `formatError`
models `struct.error` from `struct.unpack`, `notFound` models the
`ValueError("No results for ...")` raise inside
`ResistorNetworkDatabaseManager.nearest_network`, and the others model the
builtin exceptions of the same names. -/
inductive PyError where
  | valueError
  | typeError
  | zeroDivisionError
  | indexError
  | formatError
  | notFound
  deriving DecidableEq, Repr

/-- `ResistorNetworkType` from `ResistorNetwork.py`: the closed 8-tag
topology enumeration, with the same tag values 0..7. -/
inductive ResistorNetworkType where
  | SINGLE_SERIES
  | DOUBLE_SERIES
  | TRIPLE_SERIES
  | SINGLE_PARALLEL
  | DOUBLE_PARALLEL
  | TRIPLE_PARALLEL
  | SINGLE_SERIES_DOUBLE_PARALLEL
  | DOUBLE_SERIES_SINGLE_PARALLEL
  deriving DecidableEq, Repr

/-- The integer tag value of a topology (`.value` in Python). -/
def ResistorNetworkType.value : ResistorNetworkType → ℕ
  | .SINGLE_SERIES => 0
  | .DOUBLE_SERIES => 1
  | .TRIPLE_SERIES => 2
  | .SINGLE_PARALLEL => 3
  | .DOUBLE_PARALLEL => 4
  | .TRIPLE_PARALLEL => 5
  | .SINGLE_SERIES_DOUBLE_PARALLEL => 6
  | .DOUBLE_SERIES_SINGLE_PARALLEL => 7

/-- `ResistorNetworkType(b)` in Python: map a tag byte back to the enum,
raising `ValueError` (modelled as `none`) for an unknown tag. -/
def toConfiguration (b : ℕ) : Option ResistorNetworkType :=
  match b with
  | 0 => some .SINGLE_SERIES
  | 1 => some .DOUBLE_SERIES
  | 2 => some .TRIPLE_SERIES
  | 3 => some .SINGLE_PARALLEL
  | 4 => some .DOUBLE_PARALLEL
  | 5 => some .TRIPLE_PARALLEL
  | 6 => some .SINGLE_SERIES_DOUBLE_PARALLEL
  | 7 => some .DOUBLE_SERIES_SINGLE_PARALLEL
  | _ => none

/-- Python float division `a / b`: raises `ZeroDivisionError` when the
divisor is zero, otherwise divides (modelled exactly over `ℚ`). -/
def pyDiv (a b : ℚ) : Except PyError ℚ :=
  if b = 0 then .error .zeroDivisionError else .ok (a / b)

/-- `ResistorNetwork.calculate_resistance` from `ResistorNetwork.py`.
The Python `match` statement has no case for `SINGLE_PARALLEL`, so the
method falls through and returns `None` for that tag; this is modelled as
`.ok none`.  Every `1.0 / x` in the source is a `pyDiv`. -/
def calculate_resistance (configuration : ResistorNetworkType) (rs : ℚ × ℚ × ℚ) :
    Except PyError (Option ℚ) :=
  match configuration with
  | .SINGLE_SERIES | .DOUBLE_SERIES | .TRIPLE_SERIES =>
      .ok (some (rs.1 + rs.2.1 + rs.2.2))
  | .TRIPLE_PARALLEL => do
      let a ← pyDiv 1 rs.1
      let b ← pyDiv 1 rs.2.1
      let c ← pyDiv 1 rs.2.2
      let s ← pyDiv 1 (a + b + c)
      pure (some s)
  | .DOUBLE_PARALLEL => do
      let a ← pyDiv 1 rs.1
      let b ← pyDiv 1 rs.2.1
      let s ← pyDiv 1 (a + b)
      pure (some s)
  | .SINGLE_SERIES_DOUBLE_PARALLEL => do
      let b ← pyDiv 1 rs.2.1
      let c ← pyDiv 1 rs.2.2
      let s ← pyDiv 1 (b + c)
      pure (some (rs.1 + s))
  | .DOUBLE_SERIES_SINGLE_PARALLEL => do
      let a ← pyDiv 1 (rs.1 + rs.2.1)
      let c ← pyDiv 1 rs.2.2
      let s ← pyDiv 1 (a + c)
      pure (some s)
  | .SINGLE_PARALLEL => .ok none

/-- The `ResistorNetwork` dataclass: topology, the three resistor slots,
and the resistance computed once at construction.  `resistance` is an
`Option ℚ` because Python's `calculate_resistance` returns `None` for the
`SINGLE_PARALLEL` tag (the `float` annotation is not enforced). -/
structure Network where
  configuration : ResistorNetworkType
  resistors : ℚ × ℚ × ℚ
  resistance : Option ℚ
  deriving DecidableEq, Repr

/-- `ResistorNetwork.__init__`: stores the resistors (the length-3 check
always passes for a 3-tuple) and computes the resistance, propagating a
`ZeroDivisionError` raised by `calculate_resistance`. -/
def mkNetwork (configuration : ResistorNetworkType) (rs : ℚ × ℚ × ℚ) :
    Except PyError Network := do
  let r ← calculate_resistance configuration rs
  pure ⟨configuration, rs, r⟩

/-- Truncation toward zero, Python's `int()` applied to a float. -/
def pyTrunc (q : ℚ) : ℤ :=
  if 0 ≤ q then ⌊q⌋ else -⌊-q⌋

/-- `int(math.log10 q)` for `q > 0`, in exact arithmetic: the truncation
toward zero of `log10 q`.  For `q ≥ 1` this is `Nat.log 10 ⌊q⌋`; for
`0 < q < 1` the (negative) logarithm truncates up, giving
`-(Nat.log 10 ⌊q⁻¹⌋)`. -/
def pyIntLog10 (q : ℚ) : ℤ :=
  if 1 ≤ q then (Nat.log 10 ⌊q⌋.toNat : ℤ) else -(Nat.log 10 ⌊q⁻¹⌋.toNat : ℤ)

/-- `ResistorNetwork.encode_resistance`: zero encodes as `(0, 0)`;
otherwise `order = int(math.log10(resistance))` and the magnitude is
`int(resistance / 10 ** (order - 1))`. -/
def encode_resistance (resistance : ℚ) : ℤ × ℤ :=
  if resistance = 0 then (0, 0)
  else
    let order := pyIntLog10 resistance
    (pyTrunc (resistance / (10 : ℚ) ^ (order - 1)), order)

/-- `ResistorNetwork.decode_resistance`: `resistance * 10 ** (order - 1)`. -/
def decode_resistance (resistance order : ℤ) : ℚ :=
  (resistance : ℚ) * (10 : ℚ) ^ (order - 1)

/-- Round half to even (the rounding of Python's builtin `round`). -/
def pyRound (q : ℚ) : ℤ :=
  let f := ⌊q⌋
  let r := q - f
  if r < 1 / 2 then f
  else if 1 / 2 < r then f + 1
  else if f % 2 = 0 then f else f + 1

/-- Python `round(x, 2)`: round to two decimal places, half to even. -/
def round2 (q : ℚ) : ℚ :=
  (pyRound (q * 100) : ℚ) / 100

/-- The `E6` preferred-value series from `resistor_combinatorics.py`. -/
def E6 : List ℚ := [1, 3/2, 11/5, 33/10, 47/10, 34/5]

/-- The `E12` preferred-value series. -/
def E12 : List ℚ :=
  [1, 6/5, 3/2, 9/5, 11/5, 27/10, 33/10, 39/10, 47/10, 28/5, 34/5, 41/5]

/-- The `E24` preferred-value series. -/
def E24 : List ℚ :=
  [1, 11/10, 6/5, 13/10, 3/2, 8/5, 9/5, 2, 11/5, 12/5, 27/10, 3,
   33/10, 18/5, 39/10, 43/10, 47/10, 51/10, 28/5, 31/5, 34/5, 15/2, 41/5, 91/10]

/-- `generate_resistor_values(series, order)`: for each exponent
`0 ≤ e < order` in order, append `round(r * 10 ** e, 2)` for each `r` of
the series.  `range(order)` is empty for `order = 0`, so the function
never fails. -/
def generate_resistor_values (series : List ℚ) (order : ℕ) : List ℚ :=
  (List.range order).flatMap fun e => series.map fun r => round2 (r * 10 ^ e)

/-- `itertools.combinations_with_replacement(l, k)` in its enumeration
order: all weakly increasing index selections of `k` elements. -/
def cwr {α : Type} (l : List α) (k : ℕ) : List (List α) :=
  match k, l with
  | 0, _ => [[]]
  | _ + 1, [] => []
  | k + 1, x :: xs => (cwr (x :: xs) k).map (x :: ·) ++ cwr xs (k + 1)
  termination_by (k, l.length)

/-- `itertools.product(l, repeat=3)` in its enumeration order. -/
def product3 {α : Type} (l : List α) : List (α × α × α) :=
  l.flatMap fun a => l.flatMap fun b => l.map fun c => (a, b, c)

/-- View a `cwr` selection of size ≤ 3 as a zero-padded 3-tuple. -/
def toTriple (l : List ℚ) : ℚ × ℚ × ℚ :=
  (l.getD 0 0, l.getD 1 0, l.getD 2 0)

/-- The complete ordered list of `(topology, resistor-tuple)` insertions
performed by `apply_combinatorics` in `resistor_combinatorics.py`:
size-3 multisets (triple-series then triple-parallel for each), ordered
triples (1s2p then 2s1p for each), size-2 multisets zero-padded
(double-series then double-parallel for each), then the zero-padded
singles. -/
def insertionJobs (V : List ℚ) : List (ResistorNetworkType × (ℚ × ℚ × ℚ)) :=
  ((cwr V 3).flatMap fun t =>
    [(.TRIPLE_SERIES, toTriple t), (.TRIPLE_PARALLEL, toTriple t)]) ++
  ((product3 V).flatMap fun t =>
    [(.SINGLE_SERIES_DOUBLE_PARALLEL, t), (.DOUBLE_SERIES_SINGLE_PARALLEL, t)]) ++
  ((cwr V 2).flatMap fun t =>
    [(.DOUBLE_SERIES, toTriple t), (.DOUBLE_PARALLEL, toTriple t)]) ++
  (V.map fun v => (.SINGLE_SERIES, (v, 0, 0)))

/-- The catalog map: association list keyed by the (optional) computed
resistance.  A Python `dict` insertion overwrites the previous entry for
an equal key; prepending and looking up the first hit models this. -/
abbrev Catalog : Type := List (Option ℚ × Network)

/-- Python `dict` lookup: the most recent insertion for the key wins. -/
def catalogFind : Catalog → Option ℚ → Option Network
  | [], _ => none
  | (k, n) :: m, key => if k = key then some n else catalogFind m key

/-- One `combos[network.resistance] = network` statement: construct the
network (which may raise) and insert it keyed by its resistance. -/
def insertStep (m : Catalog) (job : ResistorNetworkType × (ℚ × ℚ × ℚ)) :
    Except PyError Catalog := do
  let n ← mkNetwork job.1 job.2
  pure ((n.resistance, n) :: m)

/-- Run a list of catalog insertions in order, propagating exceptions. -/
def runInserts : List (ResistorNetworkType × (ℚ × ℚ × ℚ)) → Catalog →
    Except PyError Catalog
  | [], m => .ok m
  | j :: js, m => do
      let m' ← insertStep m j
      runInserts js m'

/-- `apply_combinatorics(resistor_values)` from `resistor_combinatorics.py`:
all insertions of the four passes, in order, into an initially empty dict. -/
def apply_combinatorics (V : List ℚ) : Except PyError Catalog :=
  runInserts (insertionJobs V) []

/-- `predict_combinatorics_len` from `resistor_combinatorics.py`, with the
additions in the source's order. -/
def predict_combinatorics_len (num_resistors : ℕ) : ℕ :=
  2 * Nat.choose (num_resistors + 3 - 1) 3 +
  2 * Nat.choose (num_resistors + 2 - 1) 2 +
  num_resistors +
  2 * num_resistors ^ 3

/-- Whether an `Except` holds a value. -/
def isOkE {ε α : Type} : Except ε α → Bool
  | .ok _ => true
  | .error _ => false

/-- Look up a key in the catalog produced by a (possibly failed) build. -/
def lookupBuilt (e : Except PyError Catalog) (k : Option ℚ) : Option Network :=
  match e with
  | .ok m => catalogFind m k
  | .error _ => none

/-- `np.searchsorted(arr, t)` (side `left`) on a sorted ascending array:
the left insertion point, i.e. the number of elements strictly below `t`. -/
def searchsorted : List ℚ → ℚ → ℕ
  | [], _ => 0
  | x :: xs, t => (if x < t then 1 else 0) + searchsorted xs t

/-- The nearest-candidate selection of
`ResistorNetworkDatabaseManager.nearest_network`: binary-search for the
insertion point `left_idx`; if it is `len`, take the last element
(`chosen_series[-1]`, `IndexError` on an empty array); otherwise take
`min(chosen_series[left_idx], chosen_series[left_idx + 1], key=...)`,
where indexing `left_idx + 1` past the end raises `IndexError` and
Python's `min` keeps the first argument on ties. -/
def nearest_resistance_code (l : List ℚ) (t : ℚ) : Except PyError ℚ :=
  let i := searchsorted l t
  if i = l.length then
    match l.getLast? with
    | some x => .ok x
    | none => .error .indexError
  else
    match l[i]?, l[i + 1]? with
    | some a, some b => .ok (if |t - b| < |t - a| then b else a)
    | _, _ => .error .indexError

/-- Modelled from the spec: the nearest-value resolution of section 4.5.
Binary-search the sorted array for the insertion point of `T`; clamp to
the last element at the end and the first element at the start; otherwise
compare the element immediately before and at the insertion point, choose
the smaller `|candidate - T|`, ties resolving to the lower-valued
candidate. -/
def nearest_resistance_spec (l : List ℚ) (t : ℚ) : Option ℚ :=
  let i := searchsorted l t
  if i = l.length then l.getLast?
  else if i = 0 then l.head?
  else
    match l[i - 1]?, l[i]? with
    | some a, some b => some (if |a - t| ≤ |b - t| then a else b)
    | _, _ => none

/-- The truthiness of the `sqlite3.Cursor` returned by `conn.execute`:
the class defines neither `__bool__` nor `__len__`, so Python always
treats it as truthy. -/
def cursorTruthy : Bool := true

/-- The exact-lookup phase of
`ResistorNetworkDatabaseManager.nearest_network`: the
`if not result: raise ValueError(...)` guard tests the cursor object, and
then the single row from `fetchone()` is tuple-unpacked — unpacking the
`None` returned on a miss raises `TypeError`.  The record row is modelled
by the `Network` it denotes. -/
def exactLookup (store : ℚ → Option Network) (key : ℚ) : Except PyError Network :=
  if cursorTruthy = false then .error .notFound
  else
    match store key with
    | none => .error .typeError
    | some n => .ok n

/-- `ResistorNetworkDatabaseManager.nearest_network` for one catalog: the
sorted resistance array and the exact-match store of that catalog, a
target resistance.  (The series-name validity check selects which catalog
is passed in.) -/
def nearest_network (catalog : List ℚ) (store : ℚ → Option Network) (t : ℚ) :
    Except PyError Network := do
  let key ← nearest_resistance_code catalog t
  exactLookup store key

/-- A byte as stored in an encoded record. -/
abbrev Byte : Type := Fin 256

/-- `ResistorNetwork.decode` from `ResistorNetwork.py`:
`struct.unpack("@fBBBBBBB", data)` requires exactly 11 bytes
(`struct.error`, the format fault, otherwise); bytes 0-3 hold the stored
resistance float, which the constructor recomputes and discards; byte 4
is the topology tag (`ValueError` for an unknown tag); bytes 5-10 are the
three `(magnitude, decade)` pairs. -/
def RN_decode (data : List Byte) : Except PyError Network :=
  if data.length = 11 then
    match toConfiguration (data.getD 4 ⟨0, by norm_num⟩).val with
    | none => .error .valueError
    | some cfg =>
        mkNetwork cfg
          (decode_resistance (data.getD 5 ⟨0, by norm_num⟩).val (data.getD 6 ⟨0, by norm_num⟩).val,
           decode_resistance (data.getD 7 ⟨0, by norm_num⟩).val (data.getD 8 ⟨0, by norm_num⟩).val,
           decode_resistance (data.getD 9 ⟨0, by norm_num⟩).val (data.getD 10 ⟨0, by norm_num⟩).val)
  else .error .formatError

/-- The divisors that `calculate_resistance` feeds to `1.0 / x` for a
given topology, all required non-zero for construction to succeed. -/
def divisorsNonzero (cfg : ResistorNetworkType) (rs : ℚ × ℚ × ℚ) : Prop :=
  match cfg with
  | .TRIPLE_PARALLEL =>
      rs.1 ≠ 0 ∧ rs.2.1 ≠ 0 ∧ rs.2.2 ≠ 0 ∧ 1 / rs.1 + 1 / rs.2.1 + 1 / rs.2.2 ≠ 0
  | .DOUBLE_PARALLEL => rs.1 ≠ 0 ∧ rs.2.1 ≠ 0 ∧ 1 / rs.1 + 1 / rs.2.1 ≠ 0
  | .SINGLE_SERIES_DOUBLE_PARALLEL =>
      rs.2.1 ≠ 0 ∧ rs.2.2 ≠ 0 ∧ 1 / rs.2.1 + 1 / rs.2.2 ≠ 0
  | .DOUBLE_SERIES_SINGLE_PARALLEL =>
      rs.1 + rs.2.1 ≠ 0 ∧ rs.2.2 ≠ 0 ∧ 1 / (rs.1 + rs.2.1) + 1 / rs.2.2 ≠ 0
  | _ => True

/-- A well-formed 11-byte record span: correct length, a known topology
tag byte, and decoded resistor slots satisfying the non-zero-divisor
precondition the spec imposes on parallel-bearing topologies. -/
def WellFormedRecord (data : List Byte) : Prop :=
  data.length = 11 ∧
  ∃ cfg, toConfiguration (data.getD 4 ⟨0, by norm_num⟩).val = some cfg ∧
    divisorsNonzero cfg
      (decode_resistance (data.getD 5 ⟨0, by norm_num⟩).val (data.getD 6 ⟨0, by norm_num⟩).val,
       decode_resistance (data.getD 7 ⟨0, by norm_num⟩).val (data.getD 8 ⟨0, by norm_num⟩).val,
       decode_resistance (data.getD 9 ⟨0, by norm_num⟩).val (data.getD 10 ⟨0, by norm_num⟩).val)

/-- `⌊log2 q⌋` for a positive rational, computably. -/
def floorLog2 (q : ℚ) : ℤ :=
  if 1 ≤ q then (Nat.log 2 ⌊q⌋.toNat : ℤ) else -(Nat.clog 2 ⌈q⁻¹⌉.toNat : ℤ)

/-- Round a rational to the nearest IEEE-754 binary64 value (normal
range; ties to even), expressed exactly as a rational.  This is the
rounding CPython applies after every float literal and arithmetic
operation. -/
def fl (q : ℚ) : ℚ :=
  if q = 0 then 0
  else
    let s : ℚ := |q|
    let e := floorLog2 s
    let m := pyRound (s / 2 ^ (e - 52))
    (if 0 < q then 1 else -1) * (m : ℚ) * 2 ^ (e - 52)

/-- The magnitude/decade encoding as CPython actually executes it on
binary64 floats: the input value, the power `10 ** (order - 1)` and the
quotient are each rounded to binary64.  (The `order` branch itself is
kept exact: `int(math.log10 v)` agrees with the exact truncation for the
inputs considered here.)  Refines `encode_resistance` step-by-step. -/
def encode_resistance_float (v : ℚ) : ℤ × ℤ :=
  if v = 0 then (0, 0)
  else
    let order := pyIntLog10 v
    (pyTrunc (fl (fl v / fl ((10 : ℚ) ^ (order - 1)))), order)

/-- Modelled from the spec: `floor(log10 q)` for `q > 0`. -/
def floorLog10 (q : ℚ) : ℤ :=
  if 1 ≤ q then (Nat.log 10 ⌊q⌋.toNat : ℤ) else -(Nat.clog 10 ⌈q⁻¹⌉.toNat : ℤ)

/-- Modelled from the spec (section 4.4): if the value is exactly zero,
emit `(0, 0)`; otherwise `order = floor(log10(value))` and
`magnitude = round(value / 10^(order-1))`. -/
def encode_resistance_specified (v : ℚ) : ℤ × ℤ :=
  if v = 0 then (0, 0)
  else
    let order := floorLog10 v
    (pyRound (v / (10 : ℚ) ^ (order - 1)), order)

theorem exceptBind_ok {ε α β : Type} (a : α) (f : α → Except ε β) :
    (Except.ok a : Except ε α) >>= f = f a := rfl

theorem exceptBind_error {ε α β : Type} (e : ε) (f : α → Except ε β) :
    (Except.error e : Except ε α) >>= f = .error e := rfl

theorem exceptPure_eq_ok {ε α : Type} (a : α) :
    (pure a : Except ε α) = .ok a := rfl

attribute [simp] exceptBind_ok exceptBind_error exceptPure_eq_ok

/-- Evaluate `|a|` when `a` rewrites to a nonnegative literal. -/
theorem abs_eval_of_nonneg {a r : ℚ} (h : a = r) (hr : 0 ≤ r) : |a| = r := by
  rw [h]; exact abs_of_nonneg hr

/-- Evaluate `|a|` when `a` rewrites to a negated nonnegative literal. -/
theorem abs_eval_of_neg {a r : ℚ} (h : a = -r) (hr : 0 ≤ r) : |a| = r := by
  rw [h, abs_neg]; exact abs_of_nonneg hr

/-- Evaluate `Nat.clog` at a concrete point from two power bounds. -/
theorem natClog_eval {b x m : ℕ} (hb : 1 < b) (h1 : b ^ m < x) (h2 : x ≤ b ^ (m + 1)) :
    Nat.clog b x = m + 1 :=
  le_antisymm ((Nat.le_pow_iff_clog_le hb).mp h2) ((Nat.pow_lt_iff_lt_clog hb).mp h1)

/-- C8: the topology resistance function satisfies the literal cases:
triple-series on (1,2,3) gives 6; triple-parallel on (2,2,2) gives 2/3 ≈
0.6667; double-parallel on (4,4,0) gives 2; series-then-double-parallel
on (1,2,2) gives 2; double-series-then-parallel on (1,1,2) gives 1. -/
theorem c8_topology_formula_literals :
    calculate_resistance .TRIPLE_SERIES (1, 2, 3) = .ok (some 6) ∧
    calculate_resistance .TRIPLE_PARALLEL (2, 2, 2) = .ok (some (2/3)) ∧
    |(2/3 : ℚ) - 6667/10000| < 1/10000 ∧
    calculate_resistance .DOUBLE_PARALLEL (4, 4, 0) = .ok (some 2) ∧
    calculate_resistance .SINGLE_SERIES_DOUBLE_PARALLEL (1, 2, 2) = .ok (some 2) ∧
    calculate_resistance .DOUBLE_SERIES_SINGLE_PARALLEL (1, 1, 2) = .ok (some 1) := by
  refine ⟨by norm_num [calculate_resistance],
          by norm_num [calculate_resistance, pyDiv],
          ?_,
          by norm_num [calculate_resistance, pyDiv],
          by norm_num [calculate_resistance, pyDiv],
          by norm_num [calculate_resistance, pyDiv]⟩
  rw [abs_eval_of_neg (by norm_num : (2/3 : ℚ) - 6667/10000 = -(1/30000)) (by norm_num)]
  norm_num

/-- C10: for every 3-tuple of resistor values, constructing a network
with the `SINGLE_PARALLEL` tag succeeds, and its `resistance` field is
`None` rather than a number, because `calculate_resistance` has no branch
for that tag. -/
theorem c10_single_parallel_resistance_none (r1 r2 r3 : ℚ) :
    ∃ n : Network, mkNetwork .SINGLE_PARALLEL (r1, r2, r3) = .ok n ∧
      n.resistance = none ∧ n.configuration = .SINGLE_PARALLEL ∧
      n.resistors = (r1, r2, r3) :=
  ⟨⟨.SINGLE_PARALLEL, (r1, r2, r3), none⟩, rfl, rfl, rfl, rfl⟩

/-- C1 (code divergence): on the sorted array `[1.0, 2.2, 4.7, 10.0]` with
target `3.0`, the code's selection compares the elements at indices
`left_idx` and `left_idx + 1` (at and after the insertion point) and
returns `4.7`, while the specified before/at comparison returns the true
nearest value `2.2`; moreover target `5.0` makes the code read one
position past the end of the array, raising `IndexError`. -/
theorem c1_nearest_off_by_one :
    nearest_resistance_code [1, 11/5, 47/10, 10] 3 = .ok (47/10) ∧
    nearest_resistance_spec [1, 11/5, 47/10, 10] 3 = some (11/5) ∧
    ((47 : ℚ)/10) ≠ 11/5 ∧
    nearest_resistance_code [1, 11/5, 47/10, 10] 5 = .error .indexError := by
  have hss3 : searchsorted [1, 11/5, 47/10, 10] 3 = 2 := by norm_num [searchsorted]
  have hss5 : searchsorted [1, 11/5, 47/10, 10] 5 = 3 := by norm_num [searchsorted]
  refine ⟨?_, ?_, by norm_num, ?_⟩
  · simp only [nearest_resistance_code, hss3]
    norm_num
    rw [abs_of_nonneg (by norm_num : (0:ℚ) ≤ 17/10)]
    norm_num
  · simp only [nearest_resistance_spec, hss3]
    norm_num
    rw [abs_of_nonneg (by norm_num : (0:ℚ) ≤ 4/5),
        abs_of_nonneg (by norm_num : (0:ℚ) ≤ 17/10)]
    norm_num
  · simp only [nearest_resistance_code, hss5]
    norm_num

/-- C5 (code divergence): when the nearest search succeeds (target `4.7`
on the catalog `[1.0, 2.2, 4.7, 10.0]`) but the exact-match store has no
row for the chosen key, the lookup fails with `TypeError` (tuple-unpacking
the `None` returned by `fetchone()`), not with the intended `NotFound`
(`ValueError`): the `if not result` guard tests the always-truthy cursor
object, so that branch is unreachable. -/
theorem c5_miss_raises_type_error :
    nearest_network [1, 11/5, 47/10, 10] (fun _ => none) (47/10) =
      .error .typeError ∧
    (Except.error .typeError : Except PyError Network) ≠ .error .notFound := by
  constructor
  · have hss : searchsorted [1, 11/5, 47/10, 10] (47/10) = 2 := by
      norm_num [searchsorted]
    have hnc : nearest_resistance_code [1, 11/5, 47/10, 10] (47/10) =
        .ok (47/10) := by
      simp only [nearest_resistance_code, hss]
      norm_num
    simp only [nearest_network, hnc, exceptBind_ok]
    simp [exactLookup, cursorTruthy]
  · intro h
    exact absurd (Except.error.inj h) (by decide)

/-- C6 (amended behaviour): the Value Series Generator is total — for
every base series and every decade count it succeeds, returning
`order * |series|` values, and each `(exponent, mantissa)` pair
contributes the value `round(mantissa * 10 ** exponent, 2)`. -/
theorem c6_generator_total (series : List ℚ) (order : ℕ) :
    (generate_resistor_values series order).length = order * series.length ∧
    ∀ e, e < order → ∀ r, r ∈ series →
      round2 (r * 10 ^ e) ∈ generate_resistor_values series order := by
  induction order with
  | zero =>
      refine ⟨by simp [generate_resistor_values], ?_⟩
      intro e he
      exact absurd he (Nat.not_lt_zero e)
  | succ o ih =>
      have hstep : generate_resistor_values series (o + 1) =
          generate_resistor_values series o ++
            (series.map fun r => round2 (r * 10 ^ o)) := by
        simp [generate_resistor_values, List.range_succ]
      constructor
      · rw [hstep, List.length_append, ih.1, List.length_map]; ring
      · intro e he r hr
        rw [hstep]
        rcases Nat.lt_succ_iff_lt_or_eq.mp he with h | h
        · exact List.mem_append_left _ (ih.2 e h r hr)
        · subst h
          exact List.mem_append_right _ (List.mem_map_of_mem _ hr)

/-- Witness for the generator theorem at the E6 series with two decades
and the pair (exponent 1, mantissa 1.5). -/
theorem c6_generator_total_witness :
    (generate_resistor_values E6 2).length = 2 * E6.length ∧
    round2 ((3/2) * 10 ^ (1:ℕ)) ∈ generate_resistor_values E6 2 :=
  ⟨(c6_generator_total E6 2).1,
   (c6_generator_total E6 2).2 1 (by norm_num) (3/2) (by norm_num [E6])⟩

/-- For `q ≥ 1` the code's `int(math.log10 q)` is the exponent of the
decade containing `q`: `10 ^ o ≤ q < 10 ^ (o + 1)`. -/
theorem pyIntLog10_char_ge_one {q : ℚ} (h : 1 ≤ q) :
    (10:ℚ) ^ pyIntLog10 q ≤ q ∧ q < 10 ^ (pyIntLog10 q + 1) := by
  rw [pyIntLog10, if_pos h]
  have hfl : (1:ℤ) ≤ ⌊q⌋ := Int.le_floor.mpr (by exact_mod_cast h)
  have hfl0 : (0:ℤ) ≤ ⌊q⌋ := by linarith
  set n := ⌊q⌋.toNat with hn
  have hne : n ≠ 0 := by
    have : (1:ℤ) ≤ (n : ℤ) := by rw [hn, Int.toNat_of_nonneg hfl0]; exact hfl
    omega
  have hcast : ((n : ℤ) : ℚ) = ((⌊q⌋ : ℤ) : ℚ) := by
    rw [hn, Int.toNat_of_nonneg hfl0]
  have hnq : ((n : ℕ) : ℚ) ≤ q := by
    have h' := Int.floor_le q
    push_cast at hcast ⊢
    linarith [hcast ▸ h']
  have hqn : q < ((n : ℕ) : ℚ) + 1 := by
    have h' := Int.lt_floor_add_one q
    push_cast at hcast ⊢
    linarith [hcast ▸ h']
  constructor
  · calc (10:ℚ) ^ ((Nat.log 10 n : ℤ)) = ((10 ^ Nat.log 10 n : ℕ) : ℚ) := by
          rw [zpow_natCast]; push_cast; ring
      _ ≤ ((n : ℕ) : ℚ) := by exact_mod_cast Nat.pow_log_le_self 10 hne
      _ ≤ q := hnq
  · calc q < ((n : ℕ) : ℚ) + 1 := hqn
      _ ≤ ((10 ^ (Nat.log 10 n + 1) : ℕ) : ℚ) := by
          exact_mod_cast Nat.lt_pow_succ_log_self (by norm_num) n
      _ = (10:ℚ) ^ ((Nat.log 10 n : ℤ) + 1) := by
          rw [show ((Nat.log 10 n : ℤ) + 1) = ((Nat.log 10 n + 1 : ℕ) : ℤ) by
                push_cast; ring,
              zpow_natCast]
          push_cast; ring

/-- For `0 < q < 1` the code's `int(math.log10 q)` truncates the negative
logarithm toward zero: `10 ^ (o - 1) < q ≤ 10 ^ o`. -/
theorem pyIntLog10_char_lt_one {q : ℚ} (h0 : 0 < q) (h : q < 1) :
    (10:ℚ) ^ (pyIntLog10 q - 1) < q ∧ q ≤ 10 ^ pyIntLog10 q := by
  rw [pyIntLog10, if_neg (not_le.mpr h)]
  have hinv1 : (1:ℚ) < q⁻¹ := one_lt_inv_iff₀.mpr ⟨h0, h⟩
  have hchar := pyIntLog10_char_ge_one (le_of_lt hinv1)
  rw [pyIntLog10, if_pos (le_of_lt hinv1)] at hchar
  set m := Nat.log 10 ⌊q⁻¹⌋.toNat with hm
  obtain ⟨hlow, hhigh⟩ := hchar
  constructor
  · have := inv_strictAnti₀ (inv_pos.mpr h0) hhigh
    rw [inv_inv] at this
    calc (10:ℚ) ^ (-(m:ℤ) - 1) = ((10:ℚ) ^ ((m:ℤ) + 1))⁻¹ := by
          rw [← zpow_neg]; ring_nf
      _ < q := this
  · have hp : (0:ℚ) < 10 ^ ((m:ℤ)) := by positivity
    have := inv_anti₀ hp hlow
    rw [inv_inv] at this
    calc q ≤ ((10:ℚ) ^ ((m:ℤ)))⁻¹ := this
      _ = (10:ℚ) ^ (-(m:ℤ)) := by rw [← zpow_neg]

/-- C3 (counterexample): at `v = 0.126` the code emits `(1, 0)` —
`int(math.log10 v)` truncates toward zero and `int()` truncates the
quotient — while the claimed formula `(round(v / 10^(order-1)), order)`
with `order = floor(log10 v)` gives `(13, -1)`. -/
theorem c3_encode_counterexample :
    encode_resistance (126/1000) = (1, 0) ∧
    encode_resistance_specified (126/1000) = (13, -1) ∧
    ((1 : ℤ), (0 : ℤ)) ≠ ((13 : ℤ), (-1 : ℤ)) := by
  have hlog7 : Nat.log 10 7 = 0 :=
    Nat.log_eq_of_pow_le_of_lt_pow (by norm_num) (by norm_num)
  have hclog8 : Nat.clog 10 8 = 1 :=
    natClog_eval (by norm_num) (by norm_num) (by norm_num)
  have hfloor : (⌊((63:ℚ)/500)⁻¹⌋) = 7 := by norm_num
  have hceil : (⌈((63:ℚ)/500)⁻¹⌉) = 8 := by
    rw [Int.ceil_eq_iff]
    constructor <;> norm_num
  have hord : pyIntLog10 (63/500) = 0 := by
    rw [pyIntLog10, if_neg (by norm_num), hfloor]
    norm_num [hlog7]
  have hord2 : floorLog10 (63/500) = -1 := by
    rw [floorLog10, if_neg (by norm_num), hceil,
        show Int.toNat 8 = 8 from rfl, hclog8]
    norm_num
  refine ⟨?_, ?_, by decide⟩
  · norm_num [encode_resistance, hord, pyTrunc, zpow_neg]
  · norm_num [encode_resistance_specified, hord2, pyRound, Int.fract, zpow_neg]

/-- C3 (amended): for every value `v`, if `v == 0` the encoder emits
`(0, 0)`; otherwise (for positive `v`) it emits the magnitude
`trunc(v / 10^(order-1))` (truncation toward zero, not rounding) where
`order` is the truncation toward zero of `log10 v` (not its floor): for
`v ≥ 1`, `10^order ≤ v < 10^(order+1)`, and for `v < 1`,
`10^(order-1) < v ≤ 10^order`. -/
theorem c3_amended_trunc_encoding (v : ℚ) :
    (v = 0 → encode_resistance v = (0, 0)) ∧
    (0 < v →
      (encode_resistance v).1 = pyTrunc (v / (10:ℚ) ^ ((encode_resistance v).2 - 1)) ∧
      (1 ≤ v → (10:ℚ) ^ (encode_resistance v).2 ≤ v ∧
        v < 10 ^ ((encode_resistance v).2 + 1)) ∧
      (v < 1 → (10:ℚ) ^ ((encode_resistance v).2 - 1) < v ∧
        v ≤ 10 ^ (encode_resistance v).2)) := by
  constructor
  · intro h0
    rw [encode_resistance, if_pos h0]
  · intro hv
    have hne : v ≠ 0 := ne_of_gt hv
    have h2 : (encode_resistance v).2 = pyIntLog10 v := by
      simp [encode_resistance, hne]
    have h1 : (encode_resistance v).1 = pyTrunc (v / (10:ℚ) ^ (pyIntLog10 v - 1)) := by
      simp [encode_resistance, hne]
    refine ⟨by rw [h1, h2], fun hge => ?_, fun hlt => ?_⟩
    · rw [h2]; exact pyIntLog10_char_ge_one hge
    · rw [h2]; exact pyIntLog10_char_lt_one hv hlt

/-- Witness for the amended encoder characterization: the zero branch at
`v = 0` and the truncation branch at `v = 4.7`. -/
theorem c3_amended_trunc_encoding_witness :
    encode_resistance 0 = (0, 0) ∧
    ((encode_resistance (47/10)).1 =
      pyTrunc ((47/10) / (10:ℚ) ^ ((encode_resistance (47/10)).2 - 1)) ∧
    (1 ≤ (47/10 : ℚ) → (10:ℚ) ^ (encode_resistance (47/10)).2 ≤ 47/10 ∧
      (47/10 : ℚ) < 10 ^ ((encode_resistance (47/10)).2 + 1)) ∧
    ((47/10 : ℚ) < 1 → (10:ℚ) ^ ((encode_resistance (47/10)).2 - 1) < 47/10 ∧
      (47/10 : ℚ) ≤ 10 ^ (encode_resistance (47/10)).2)) :=
  ⟨(c3_amended_trunc_encoding 0).1 rfl,
   (c3_amended_trunc_encoding (47/10)).2 (by norm_num)⟩

/-- `combinations_with_replacement` on a list of length `n` yields
`C(n + k - 1, k)` selections. -/
theorem cwr_len {α : Type} : ∀ (k : ℕ) (l : List α),
    (cwr l k).length = Nat.choose (l.length + k - 1) k := by
  intro k
  induction k with
  | zero => intro l; simp [cwr]
  | succ k ih =>
      intro l
      induction l with
      | nil => simp [cwr]
      | cons x xs ihl =>
          have hunf : cwr (x :: xs) (k + 1) =
              (cwr (x :: xs) k).map (x :: ·) ++ cwr xs (k + 1) := by
            rw [cwr]
          rw [hunf, List.length_append, List.length_map, ih (x :: xs), ihl]
          simp only [List.length_cons]
          have h1 : xs.length + 1 + k - 1 = xs.length + k := by omega
          have h2 : xs.length + (k + 1) - 1 = xs.length + k := by omega
          have h3 : xs.length + 1 + (k + 1) - 1 = xs.length + k + 1 := by omega
          rw [h1, h2, h3, Nat.choose_succ_succ (xs.length + k) k]

/-- Length of a `flatMap` whose pieces all have the same length. -/
theorem flatMap_const_len {α β : Type} (L : List α) (f : α → List β) (c : ℕ)
    (h : ∀ a ∈ L, (f a).length = c) : (L.flatMap f).length = L.length * c := by
  induction L with
  | nil => simp
  | cons x xs ih =>
      simp only [List.flatMap_cons, List.length_append, List.length_cons]
      rw [h x (List.mem_cons_self x xs), ih fun a ha => h a (List.mem_cons_of_mem _ ha)]
      ring

/-- `itertools.product(l, repeat=3)` yields `n ^ 3` tuples. -/
theorem product3_len {α : Type} (l : List α) : (product3 l).length = l.length ^ 3 := by
  rw [product3, flatMap_const_len l _ (l.length * l.length) ?_]
  · ring
  · intro a _
    rw [flatMap_const_len l _ l.length ?_]
    intro b _
    exact List.length_map l _

/-- Each enumeration pass inserts two networks per tuple. -/
theorem flatMap_pair_len {α β : Type} (L : List α) (f g : α → β) :
    (L.flatMap fun t => [f t, g t]).length = 2 * L.length := by
  rw [flatMap_const_len L (fun t => [f t, g t]) 2 (fun a _ => rfl)]; ring

/-- C7: for every value set, the number of candidate networks the
Catalog Builder enumerates before de-duplication equals
`2*C(n+2,3) + 2*n^3 + 2*C(n+1,2) + n`, the value computed by
`predict_combinatorics_len(n)`; in particular the two agree for the
`n = 6` value set of one decade of E6. -/
theorem c7_predict_matches_enumeration :
    (∀ V : List ℚ, (insertionJobs V).length = predict_combinatorics_len V.length) ∧
    (insertionJobs (generate_resistor_values E6 1)).length =
      predict_combinatorics_len 6 := by
  have hmain : ∀ V : List ℚ,
      (insertionJobs V).length = predict_combinatorics_len V.length := by
    intro V
    rw [insertionJobs, predict_combinatorics_len]
    simp only [List.length_append]
    rw [flatMap_pair_len, flatMap_pair_len, flatMap_pair_len, List.length_map,
        cwr_len, cwr_len, product3_len]
    set a := Nat.choose (V.length + 3 - 1) 3
    set b := Nat.choose (V.length + 2 - 1) 2
    set c := V.length ^ 3
    omega
  refine ⟨hmain, ?_⟩
  rw [hmain (generate_resistor_values E6 1),
      show (generate_resistor_values E6 1).length = 6 by
        simp [generate_resistor_values, E6, List.range_succ]]

/-- Splitting a successful run of catalog insertions at a list append. -/
theorem runInserts_append_ok (a b : List (ResistorNetworkType × (ℚ × ℚ × ℚ)))
    (m mf : Catalog) (h : runInserts (a ++ b) m = .ok mf) :
    ∃ mi, runInserts a m = .ok mi ∧ runInserts b mi = .ok mf := by
  induction a generalizing m with
  | nil => exact ⟨m, rfl, h⟩
  | cons j js ih =>
      rw [List.cons_append] at h
      simp only [runInserts] at h ⊢
      cases hstep : insertStep m j with
      | error e => rw [hstep, exceptBind_error] at h; exact absurd h (by simp)
      | ok mi' =>
          rw [hstep, exceptBind_ok] at h
          obtain ⟨mi, h1, h2⟩ := ih mi' h
          exact ⟨mi, by rw [exceptBind_ok]; exact h1, h2⟩

/-- The singles pass never touches a key outside the value set. -/
theorem singles_find_preserved : ∀ (xs : List ℚ) (m0 m : Catalog),
    runInserts (xs.map fun w =>
      (ResistorNetworkType.SINGLE_SERIES, (w, (0:ℚ), (0:ℚ)))) m0 = .ok m →
    ∀ v : ℚ, v ∉ xs → catalogFind m (some v) = catalogFind m0 (some v) := by
  intro xs
  induction xs with
  | nil =>
      intro m0 m h v _
      simp only [List.map_nil, runInserts] at h
      cases h
      rfl
  | cons x xs ih =>
      intro m0 m h v hv
      have hne : v ≠ x := fun hEq => hv (List.mem_cons.mpr (Or.inl hEq))
      have hnx : v ∉ xs := fun hmem => hv (List.mem_cons.mpr (Or.inr hmem))
      replace h : runInserts (xs.map fun w =>
          (ResistorNetworkType.SINGLE_SERIES, (w, (0:ℚ), (0:ℚ))))
          ((some (x + 0 + 0),
            ⟨.SINGLE_SERIES, (x, 0, 0), some (x + 0 + 0)⟩) :: m0) = .ok m := h
      rw [ih _ _ h v hnx, catalogFind, if_neg]
      intro hEq
      exact hne (by injection hEq with h'; exact (by linarith [h'.symm] : v = x))

/-- After the singles pass, every value of the set maps to its
single-series network. -/
theorem singles_find : ∀ (xs : List ℚ) (m0 m : Catalog),
    runInserts (xs.map fun w =>
      (ResistorNetworkType.SINGLE_SERIES, (w, (0:ℚ), (0:ℚ)))) m0 = .ok m →
    ∀ v ∈ xs, catalogFind m (some v) =
      some ⟨.SINGLE_SERIES, (v, 0, 0), some v⟩ := by
  intro xs
  induction xs with
  | nil => intro m0 m h v hv; exact absurd hv (List.not_mem_nil v)
  | cons x xs ih =>
      intro m0 m h v hv
      replace h : runInserts (xs.map fun w =>
          (ResistorNetworkType.SINGLE_SERIES, (w, (0:ℚ), (0:ℚ))))
          ((some (x + 0 + 0),
            ⟨.SINGLE_SERIES, (x, 0, 0), some (x + 0 + 0)⟩) :: m0) = .ok m := h
      by_cases hvx : v ∈ xs
      · exact ih _ _ h v hvx
      · have hveq : v = x := by
          rcases List.mem_cons.mp hv with h' | h'
          · exact h'
          · exact absurd h' hvx
        subst hveq
        rw [singles_find_preserved xs _ m h v hvx, catalogFind,
            if_pos (by norm_num), show v + 0 + 0 = v by ring]

/-- C4: when the Catalog Builder finishes its four passes, every value
`v` of the value set ends up mapped, at key `v`, to the single-series
network on `(v, 0, 0)` — the singles pass runs last and its insertions
overwrite any earlier multi-resistor network with the same resistance
key, so the fewest-resistor topology wins. -/
theorem c4_single_topology_wins (V : List ℚ) (v : ℚ) (hv : v ∈ V)
    (hok : isOkE (apply_combinatorics V) = true) :
    lookupBuilt (apply_combinatorics V) (some v) =
      some ⟨.SINGLE_SERIES, (v, 0, 0), some v⟩ := by
  obtain ⟨m, hm⟩ : ∃ m, apply_combinatorics V = .ok m := by
    cases h : apply_combinatorics V with
    | ok m => exact ⟨m, rfl⟩
    | error e => rw [h] at hok; exact absurd hok (by simp [isOkE])
  rw [lookupBuilt.eq_def, hm]
  have hm' : runInserts (insertionJobs V) [] = .ok m := hm
  unfold insertionJobs at hm'
  obtain ⟨m1, h1, h1'⟩ := runInserts_append_ok _ _ _ _ hm'
  exact singles_find V m1 m h1' v hv

/-- Witness for the dedup-precedence theorem on the one-element value set
`[1.0]`, whose build enumerates all seven topology insertions. -/
theorem c4_single_topology_wins_witness :
    lookupBuilt (apply_combinatorics [(1:ℚ)]) (some 1) =
      some ⟨.SINGLE_SERIES, (1, 0, 0), some 1⟩ :=
  c4_single_topology_wins [(1:ℚ)] 1 (by norm_num)
    (by norm_num [apply_combinatorics, insertionJobs, cwr, product3, toTriple,
          runInserts, insertStep, mkNetwork, calculate_resistance, pyDiv, isOkE])

/-- Construction succeeds whenever every divisor the topology's formula
feeds to `1.0 / x` is non-zero. -/
theorem mkNetwork_ok_of_divisorsNonzero (cfg : ResistorNetworkType) (rs : ℚ × ℚ × ℚ)
    (h : divisorsNonzero cfg rs) : ∃ n, mkNetwork cfg rs = .ok n := by
  cases cfg with
  | SINGLE_SERIES => exact ⟨_, rfl⟩
  | DOUBLE_SERIES => exact ⟨_, rfl⟩
  | TRIPLE_SERIES => exact ⟨_, rfl⟩
  | SINGLE_PARALLEL => exact ⟨_, rfl⟩
  | TRIPLE_PARALLEL =>
      obtain ⟨h1, h2, h3, h4⟩ := h
      simp only [mkNetwork, calculate_resistance, pyDiv, if_neg h1, if_neg h2,
        if_neg h3, exceptBind_ok]
      rw [if_neg (by simpa [one_div] using h4)]
      exact ⟨_, rfl⟩
  | DOUBLE_PARALLEL =>
      obtain ⟨h1, h2, h3⟩ := h
      simp only [mkNetwork, calculate_resistance, pyDiv, if_neg h1, if_neg h2,
        exceptBind_ok]
      rw [if_neg (by simpa [one_div] using h3)]
      exact ⟨_, rfl⟩
  | SINGLE_SERIES_DOUBLE_PARALLEL =>
      obtain ⟨h1, h2, h3⟩ := h
      simp only [mkNetwork, calculate_resistance, pyDiv, if_neg h1, if_neg h2,
        exceptBind_ok]
      rw [if_neg (by simpa [one_div] using h3)]
      exact ⟨_, rfl⟩
  | DOUBLE_SERIES_SINGLE_PARALLEL =>
      obtain ⟨h1, h2, h3⟩ := h
      simp only [mkNetwork, calculate_resistance, pyDiv, if_neg h1, if_neg h2,
        exceptBind_ok]
      rw [if_neg (by simpa [one_div] using h3)]
      exact ⟨_, rfl⟩

/-- C9: decoding any byte span whose length is not exactly the 11-byte
record size fails with the format fault from `struct.unpack`, and
decoding any well-formed 11-byte span (known topology tag, non-zero
parallel divisors) succeeds with a network. -/
theorem c9_decode_length_contract :
    (∀ data : List Byte, data.length ≠ 11 →
      RN_decode data = .error .formatError) ∧
    (∀ data : List Byte, WellFormedRecord data →
      ∃ n, RN_decode data = .ok n) := by
  constructor
  · intro data h
    simp only [RN_decode]
    rw [if_neg h]
  · intro data ⟨hlen, cfg, hcfg, hdiv⟩
    simp only [RN_decode]
    rw [if_pos hlen, hcfg]
    exact mkNetwork_ok_of_divisorsNonzero cfg _ hdiv

/-- Witness for the decode contract: the empty span fails with the format
fault, and the all-zero 11-byte span (single-series record) decodes. -/
theorem c9_decode_length_contract_witness :
    RN_decode [] = .error .formatError ∧
    (∃ n, RN_decode (List.replicate 11 (⟨0, by norm_num⟩ : Byte)) = .ok n) :=
  ⟨c9_decode_length_contract.1 [] (by simp),
   c9_decode_length_contract.2 (List.replicate 11 ⟨0, by norm_num⟩)
     ⟨by simp, .SINGLE_SERIES, by simp [toConfiguration], trivial⟩⟩

/-- `log2 8 = 3`, the binade of the grid value 8.2. -/
theorem natLog2_eight : Nat.log 2 8 = 3 :=
  Nat.log_eq_of_pow_le_of_lt_pow (by norm_num) (by norm_num)

/-- The IEEE-754 binary64 value nearest the grid value 8.2: its mantissa
rounds down, so the stored float is strictly below 8.2. -/
theorem fl_at_grid_value : fl (41/5) = 4616189618054758/562949953421312 := by
  have habs : |(41/5 : ℚ)| = 41/5 := abs_of_pos (by norm_num)
  have he : floorLog2 (41/5) = 3 := by
    rw [floorLog2, if_pos (by norm_num), show ⌊(41/5 : ℚ)⌋ = 8 by norm_num,
        show Int.toNat 8 = 8 from rfl, natLog2_eight]
    norm_num
  simp only [fl, habs, he]
  rw [if_neg (by norm_num), if_pos (by norm_num)]
  norm_num [pyRound]

/-- The binary64 value of `10 ** -1`: the mantissa of 0.1 rounds up, so
the stored float is strictly above 1/10. -/
theorem fl_at_tenth : fl ((10:ℚ) ^ ((0:ℤ) - 1)) = 7205759403792794/72057594037927936 := by
  have h110 : (10:ℚ) ^ ((0:ℤ) - 1) = 1/10 := by norm_num
  have habs : |(1/10 : ℚ)| = 1/10 := abs_of_pos (by norm_num)
  have hclog : Nat.clog 2 10 = 4 := natClog_eval (by norm_num) (by norm_num) (by norm_num)
  have he : floorLog2 (1/10) = -4 := by
    rw [floorLog2, if_neg (by norm_num), show ((1/10 : ℚ))⁻¹ = 10 by norm_num,
        show ⌈(10 : ℚ)⌉ = 10 by simp, show Int.toNat 10 = 10 from rfl, hclog]
    norm_num
  rw [h110]
  simp only [fl, habs, he]
  rw [if_neg (by norm_num), if_pos (by norm_num)]
  norm_num [pyRound]

/-- The binary64 quotient `8.2 / 0.1` as CPython computes it: it rounds
to `5770237022568447 * 2^-46 = 81.99999999999998...`, strictly below 82. -/
theorem fl_quotient_below_eightytwo :
    fl (fl (41/5) / fl ((10:ℚ) ^ ((0:ℤ) - 1))) = 5770237022568447/70368744177664 := by
  rw [fl_at_grid_value, fl_at_tenth]
  have hX : (4616189618054758/562949953421312 : ℚ) /
      (7205759403792794/72057594037927936) = 295436135555504512/3602879701896397 := by
    norm_num
  rw [hX]
  have hlog81 : Nat.log 2 81 = 6 :=
    Nat.log_eq_of_pow_le_of_lt_pow (by norm_num) (by norm_num)
  have habs : |(295436135555504512/3602879701896397 : ℚ)| =
      295436135555504512/3602879701896397 := abs_of_pos (by norm_num)
  have hfloor : (⌊(295436135555504512/3602879701896397 : ℚ)⌋) = 81 := by norm_num
  have he : floorLog2 (295436135555504512/3602879701896397) = 6 := by
    rw [floorLog2, if_pos (by norm_num), hfloor,
        show Int.toNat 81 = 81 from rfl, hlog81]
    norm_num
  simp only [fl, habs, he]
  rw [if_neg (by norm_num), if_pos (by norm_num)]
  norm_num [pyRound]

/-- C2 (code divergence): the grid value 8.2 (present in the generated
E12 values) does not round-trip through the codec as CPython executes it
on binary64 floats: `8.2 / 10**-1` evaluates to `81.99999999999998...`,
`int()` truncates it to 81, so `encode(8.2) = (81, 0)` and decoding gives
8.1, not 8.2.  In exact arithmetic (last conjunct) the round-trip would
hold, so the failure is purely the float rounding. -/
theorem c2_float_roundtrip_fails_at_grid :
    (41/5 : ℚ) ∈ generate_resistor_values E12 1 ∧
    encode_resistance_float (41/5) = (81, 0) ∧
    decode_resistance 81 0 = 81/10 ∧
    ((81/10 : ℚ) ≠ 41/5) ∧
    decode_resistance (encode_resistance (41/5)).1 (encode_resistance (41/5)).2
      = 41/5 := by
  have hlog10_8 : Nat.log 10 8 = 0 :=
    Nat.log_eq_of_pow_le_of_lt_pow (by norm_num) (by norm_num)
  have hord : pyIntLog10 (41/5) = 0 := by
    rw [pyIntLog10, if_pos (by norm_num), show ⌊(41/5 : ℚ)⌋ = 8 by norm_num,
        show Int.toNat 8 = 8 from rfl, hlog10_8]
    norm_num
  have henc : encode_resistance (41/5) = (82, 0) := by
    simp only [encode_resistance, hord]
    rw [if_neg (by norm_num)]
    norm_num [pyTrunc]
  refine ⟨?_, ?_, by norm_num [decode_resistance], by norm_num, ?_⟩
  · have hr : round2 ((41/5) * 10 ^ (0:ℕ)) = 41/5 := by
      norm_num [round2, pyRound]
    have hgen : generate_resistor_values E12 1 =
        E12.map fun r => round2 (r * 10 ^ (0:ℕ)) := by
      simp [generate_resistor_values, List.range_succ]
    rw [hgen]
    exact List.mem_map.mpr ⟨41/5, by norm_num [E12], hr⟩
  · simp only [encode_resistance_float, hord]
    rw [if_neg (by norm_num), fl_quotient_below_eightytwo]
    norm_num [pyTrunc]
  · rw [henc, decode_resistance]
    norm_num

/-- C6 (counterexample): the Value Series Generator does not reject a
decade count below 1 — `range(0)` is empty, so `N = 0` succeeds and
returns the empty sequence instead of failing. -/
theorem c6_counterexample : generate_resistor_values E6 0 = ([] : List ℚ) := rfl
